import Mathlib

/-!
Shallow embedding of `printPDF.py`: the `printPdfWorker` constructor and its
`run` routine (print pipeline), and the `Window.runPrintTask` click handler
of the UI shell.

Modelling conventions:
* Python `int()` on a nonnegative float is truncation toward zero; all the
  quantities truncated here are nonnegative rationals, so it is `Rat.floor`.
  Exact rational arithmetic stands in for IEEE doubles; every concrete input
  used below has been checked to give the same truncated result in both.
* The worker's Qt signals (`progress`, `finished`), painter calls
  (`drawImage`, `newPage`, `end`) and the document close are modelled as an
  event trace.  An uncaught Python exception is modelled by the Boolean
  component of `run`'s result: `false` means the routine was aborted by an
  exception, and the trace holds exactly the events emitted before it.
* The PDF library is modelled by `Doc`: page count, the pixel size of each
  rendered page bitmap, and whether rendering page `i` succeeds
  (`renderOk i = false` models `pdfium` raising while the page is pulled
  from the renderer generator).  A document that fails to open
  (`pdfium.PdfDocument` raising) is `Job.doc = none`.
-/

namespace PrintPDF

/-- Python `int()` applied to a rational: truncation toward zero. -/
def pytrunc (x : ℚ) : ℤ :=
  if 0 ≤ x then x.floor else x.ceil

/-- Errors the `printPdfWorker` constructor can raise (lines 42-48). -/
inductive InitError
  | attributeError
  | typeError
deriving DecidableEq

/-- The `pdf` argument passed to `printPdfWorker.__init__`: Python `None`,
a `str`, a `pathlib.Path`, or any other object; for the last three we record
whether `os.path.exists` holds for it. -/
inductive PdfArg
  | pynone
  | pystr (onDisk : Bool)
  | pypathObj (onDisk : Bool)
  | pyother (onDisk : Bool)
deriving DecidableEq

/-- `isinstance(pdf, str)`. -/
def PdfArg.isStr : PdfArg → Bool
  | .pystr _ => true
  | _ => false

/-- `isinstance(pdf, Path)`. -/
def PdfArg.isPathObj : PdfArg → Bool
  | .pypathObj _ => true
  | _ => false

/-- `os.path.exists(pdf)`. -/
def PdfArg.onDiskB : PdfArg → Bool
  | .pynone => false
  | .pystr b => b
  | .pypathObj b => b
  | .pyother b => b

/-- `printPdfWorker.__init__` (lines 40-51): raises `AttributeError` when
`pdf == None`; otherwise accepts iff
`isinstance(pdf, str) or isinstance(pdf, Path) or not os.path.exists(pdf)`,
raising `TypeError` in the remaining case. -/
def workerInit (pdf : PdfArg) : Except InitError Unit :=
  if pdf = .pynone then .error .attributeError
  else if pdf.isStr || pdf.isPathObj || !pdf.onDiskB then .ok () else .error .typeError

/-- Observable effects of one click of the print button. -/
structure UiOutcome where
  workerConstructed : Bool
  threadStarted : Bool
  printButtonDisabled : Bool
deriving DecidableEq

/-- `Window.runPrintTask` (lines 165-183): the picker result is passed to the
worker constructor unconditionally; when construction succeeds the thread is
started and the print button disabled; when the constructor raises, the
exception propagates before `thread.start()` and before
`longRunningBtn.setEnabled(False)`. -/
def runPrintTask (pickerPath : PdfArg) : UiOutcome :=
  match workerInit pickerPath with
  | .ok _ => ⟨true, true, true⟩
  | .error _ => ⟨false, false, false⟩

/-- Per-page geometry (lines 80-96): ratios, orientation correction, and the
drawing rectangle.  `VW`,`VH` are the viewport width/height, `PW`,`PH` the raw
rendered bitmap width/height.  Note that `imageRatio` is computed once, before
the rotation, and is NOT recomputed after `pilWidth, pilHeight` are swapped;
the branch on line 91 therefore compares against the pre-rotation ratio. -/
def fitRect (VW VH : ℤ) (PW PH : ℕ) : ℤ × ℤ × ℤ × ℤ :=
  let imageRatio : ℚ := (PH : ℚ) / (PW : ℚ)
  let viewportRatio : ℚ := (VH : ℚ) / (VW : ℚ)
  let rotated : Bool :=
    decide ((viewportRatio < 1 ∧ 1 < imageRatio) ∨ (1 < viewportRatio ∧ imageRatio < 1))
  let pw : ℚ := if rotated then (PH : ℚ) else (PW : ℚ)
  let ph : ℚ := if rotated then (PW : ℚ) else (PH : ℚ)
  if imageRatio < viewportRatio then
    (0, 0, VW, pytrunc ((VW : ℚ) / (pw / ph)))
  else
    (0, 0, pytrunc (pw / ph * (VH : ℚ)), VH)

/-- One event of the worker's observable behaviour. -/
inductive Ev
  | newPage
  | draw (idx : ℕ) (rect : ℤ × ℤ × ℤ × ℤ)
  | progress (pct : ℕ)
  | pdfClose
  | painterEnd
  | finished
deriving DecidableEq

/-- The PDF document as seen through `pypdfium2`. -/
structure Doc where
  nPages : ℕ
  pageW : ℕ → ℕ
  pageH : ℕ → ℕ
  renderOk : ℕ → Bool

/-- One print job: the dialog outcome, the document (or `none` when opening
raises), the printer configuration's page fields, and the painter viewport. -/
structure Job where
  dialogAccepted : Bool
  doc : Option Doc
  fromPage : ℕ
  toPage : ℕ
  vpW : ℤ
  vpH : ℤ

/-- Line 65: `printRange = range(n_pages) if fromPage == 0 else
range(fromPage-1, toPage)`, materialised as `page_indices` on line 67. -/
def pageIndices (nPages fromPage toPage : ℕ) : List ℕ :=
  if fromPage = 0 then List.range nPages
  else List.range' (fromPage - 1) (toPage - (fromPage - 1))

/-- The render loop (lines 75-103).  `pageNumber` is the 1-based counter from
`count(1)`.  Pulling page `i` from the renderer raises when
`renderOk i = false`, aborting the loop before that iteration emits anything;
otherwise the iteration emits `newPage` (when `pageNumber > 1`), the draw
call with the fitted rectangle, and the progress signal
`int(pageNumber*100/len(page_indices))`. -/
def runLoop (vpW vpH : ℤ) (d : Doc) (total : ℕ) : List ℕ → ℕ → List Ev × Bool
  | [], _ => ([], true)
  | i :: rest, pageNumber =>
    if d.renderOk i then
      let r := runLoop vpW vpH d total rest (pageNumber + 1)
      (((if 1 < pageNumber then [Ev.newPage] else []) ++
          [Ev.draw i (fitRect vpW vpH (d.pageW i) (d.pageH i)),
           Ev.progress (pageNumber * 100 / total)]) ++ r.1,
       r.2)
    else ([], false)

/-- `printPdfWorker.run` (lines 53-110).  When the dialog is declined the
routine skips to `finished`.  When it is accepted: opening the document may
raise (`doc = none`; the exception propagates, so neither cleanup nor
`finished` happens); otherwise the render loop runs and, if it completes,
`pdf.close()`, `painter.end()` and `finished` follow in that order.  A render
failure likewise propagates, skipping cleanup and `finished`. -/
def run (j : Job) : List Ev × Bool :=
  if j.dialogAccepted then
    match j.doc with
    | none => ([], false)
    | some d =>
      let idxs := pageIndices d.nPages j.fromPage j.toPage
      let r := runLoop j.vpW j.vpH d idxs.length idxs 1
      if r.2 then (r.1 ++ [Ev.pdfClose, Ev.painterEnd, Ev.finished], true)
      else (r.1, false)
  else ([Ev.finished], true)

/-- The page indices drawn, in trace order. -/
def drawnIndices (t : List Ev) : List ℕ :=
  t.filterMap fun e => match e with
    | .draw i _ => some i
    | _ => none

/-- The progress percentages emitted, in trace order. -/
def progressValues (t : List Ev) : List ℕ :=
  t.filterMap fun e => match e with
    | .progress p => some p
    | _ => none

/-- Events the render loop can emit (as opposed to cleanup/terminal events). -/
def Ev.loopish : Ev → Bool
  | .newPage => true
  | .draw _ _ => true
  | .progress _ => true
  | _ => false

/-! ### Helper lemmas -/

theorem ratFloor_eq_floor (x : ℚ) : x.floor = ⌊x⌋ :=
  (Rat.floor_def' x).trans Rat.floor_def.symm

theorem pytrunc_eq_floor {x : ℚ} (h : 0 ≤ x) : pytrunc x = ⌊x⌋ := by
  rw [pytrunc, if_pos h, ratFloor_eq_floor]

theorem mem_runLoop_loopish (vpW vpH : ℤ) (d : Doc) (total : ℕ) :
    ∀ (idxs : List ℕ) (k : ℕ) (e : Ev),
      e ∈ (runLoop vpW vpH d total idxs k).1 → e.loopish = true := by
  intro idxs
  induction idxs with
  | nil => intro k e he; simp [runLoop] at he
  | cons i rest ih =>
    intro k e he
    by_cases hr : d.renderOk i = true
    · simp only [runLoop, hr, if_true] at he
      rw [List.mem_append, List.mem_append] at he
      rcases he with (he | he) | he
      · split_ifs at he with hk
        · simp only [List.mem_singleton] at he; subst he; rfl
        · simp at he
      · rcases List.mem_cons.1 he with he | he
        · subst he; rfl
        · rcases List.mem_cons.1 he with he | he
          · subst he; rfl
          · simp at he
      · exact ih (k + 1) e he
    · simp only [runLoop, hr] at he
      simp at he

theorem runLoop_count_finished (vpW vpH : ℤ) (d : Doc) (total : ℕ) (idxs : List ℕ) (k : ℕ) :
    ((runLoop vpW vpH d total idxs k).1).count Ev.finished = 0 := by
  rw [List.count_eq_zero]
  intro hmem
  have := mem_runLoop_loopish vpW vpH d total idxs k Ev.finished hmem
  simp [Ev.loopish] at this

theorem pdfClose_not_mem_runLoop (vpW vpH : ℤ) (d : Doc) (total : ℕ) (idxs : List ℕ) (k : ℕ) :
    Ev.pdfClose ∉ (runLoop vpW vpH d total idxs k).1 := by
  intro hmem
  have := mem_runLoop_loopish vpW vpH d total idxs k Ev.pdfClose hmem
  simp [Ev.loopish] at this

theorem painterEnd_not_mem_runLoop (vpW vpH : ℤ) (d : Doc) (total : ℕ) (idxs : List ℕ) (k : ℕ) :
    Ev.painterEnd ∉ (runLoop vpW vpH d total idxs k).1 := by
  intro hmem
  have := mem_runLoop_loopish vpW vpH d total idxs k Ev.painterEnd hmem
  simp [Ev.loopish] at this

theorem finished_not_mem_runLoop (vpW vpH : ℤ) (d : Doc) (total : ℕ) (idxs : List ℕ) (k : ℕ) :
    Ev.finished ∉ (runLoop vpW vpH d total idxs k).1 := by
  intro hmem
  have := mem_runLoop_loopish vpW vpH d total idxs k Ev.finished hmem
  simp [Ev.loopish] at this

theorem runLoop_of_ok (vpW vpH : ℤ) (d : Doc) (total : ℕ) :
    ∀ (idxs : List ℕ) (k : ℕ), (∀ i ∈ idxs, d.renderOk i = true) →
      (runLoop vpW vpH d total idxs k).2 = true
      ∧ drawnIndices (runLoop vpW vpH d total idxs k).1 = idxs
      ∧ progressValues (runLoop vpW vpH d total idxs k).1 =
          (List.range idxs.length).map (fun n => (k + n) * 100 / total) := by
  intro idxs
  induction idxs with
  | nil =>
    intro k _
    exact ⟨rfl, rfl, rfl⟩
  | cons i rest ih =>
    intro k h
    have hr : d.renderOk i = true := h i (List.mem_cons_self i rest)
    have hrest : ∀ i' ∈ rest, d.renderOk i' = true := fun i' hi' => h i' (List.mem_cons_of_mem i hi')
    obtain ⟨hflag, hdraw, hprog⟩ := ih (k + 1) hrest
    refine ⟨by simp only [runLoop, hr, if_true]; exact hflag, ?_, ?_⟩
    · simp only [runLoop, hr, if_true, drawnIndices, List.filterMap_append] at hdraw ⊢
      split_ifs with hk
      · simpa using hdraw
      · simpa using hdraw
    · simp only [runLoop, hr, if_true, progressValues, List.filterMap_append] at hprog ⊢
      rw [List.length_cons, List.range_succ_eq_map, List.map_cons, List.map_map]
      have hcongr : ∀ n ∈ List.range rest.length,
          ((fun n => (k + n) * 100 / total) ∘ Nat.succ) n = (k + 1 + n) * 100 / total := by
        intro n _
        simp only [Function.comp_apply]
        congr 1
        omega
      rw [List.map_congr_left hcongr]
      split_ifs with hk
      · simpa using hprog
      · simpa using hprog

theorem run_of_ok (j : Job) (d : Doc) (hacc : j.dialogAccepted = true) (hdoc : j.doc = some d)
    (hren : ∀ i ∈ pageIndices d.nPages j.fromPage j.toPage, d.renderOk i = true) :
    run j = ((runLoop j.vpW j.vpH d (pageIndices d.nPages j.fromPage j.toPage).length
        (pageIndices d.nPages j.fromPage j.toPage) 1).1
      ++ [Ev.pdfClose, Ev.painterEnd, Ev.finished], true) := by
  have hflag := (runLoop_of_ok j.vpW j.vpH d (pageIndices d.nPages j.fromPage j.toPage).length
    (pageIndices d.nPages j.fromPage j.toPage) 1 hren).1
  simp only [run, hacc, hdoc, if_true, hflag]

theorem mem_pageIndices (n f t i : ℕ) :
    i ∈ pageIndices n f t ↔ (if f = 0 then i < n else f - 1 ≤ i ∧ i < t) := by
  unfold pageIndices
  split_ifs with hf
  · simp
  · rw [List.mem_range'_1]
    omega

theorem pageIndices_sorted (n f t : ℕ) : List.Sorted (· < ·) (pageIndices n f t) := by
  unfold pageIndices
  split_ifs
  · exact List.sorted_lt_range n
  · exact List.pairwise_lt_range' _ _

theorem pageIndices_eq_nil (n f t : ℕ) (hf : 0 < f) (ht : t < f) : pageIndices n f t = [] := by
  unfold pageIndices
  rw [if_neg (by omega)]
  have h0 : t - (f - 1) = 0 := by omega
  rw [h0]
  rfl

theorem run_drawnIndices (j : Job) (d : Doc) (hacc : j.dialogAccepted = true)
    (hdoc : j.doc = some d)
    (hren : ∀ i ∈ pageIndices d.nPages j.fromPage j.toPage, d.renderOk i = true) :
    drawnIndices (run j).1 = pageIndices d.nPages j.fromPage j.toPage := by
  have hrun := run_of_ok j d hacc hdoc hren
  have hloop := runLoop_of_ok j.vpW j.vpH d (pageIndices d.nPages j.fromPage j.toPage).length
    (pageIndices d.nPages j.fromPage j.toPage) 1 hren
  rw [hrun]
  simp only [drawnIndices, List.filterMap_append] at hloop ⊢
  rw [hloop.2.1]
  simp [drawnIndices]

theorem run_progressValues (j : Job) (d : Doc) (N : ℕ) (hacc : j.dialogAccepted = true)
    (hdoc : j.doc = some d)
    (hren : ∀ i ∈ pageIndices d.nPages j.fromPage j.toPage, d.renderOk i = true)
    (hN : (pageIndices d.nPages j.fromPage j.toPage).length = N) :
    progressValues (run j).1 = (List.range N).map (fun k => (k + 1) * 100 / N) := by
  have hrun := run_of_ok j d hacc hdoc hren
  have hloop := (runLoop_of_ok j.vpW j.vpH d (pageIndices d.nPages j.fromPage j.toPage).length
    (pageIndices d.nPages j.fromPage j.toPage) 1 hren).2.2
  rw [hrun]
  simp only [progressValues, List.filterMap_append] at hloop ⊢
  rw [hloop, hN]
  simp only [List.filterMap_cons, List.filterMap_nil, List.append_nil]
  exact List.map_congr_left fun n _ => by rw [Nat.add_comm 1 n]

theorem run_progress_head (j : Job) (d : Doc) (N : ℕ) (hacc : j.dialogAccepted = true)
    (hdoc : j.doc = some d)
    (hren : ∀ i ∈ pageIndices d.nPages j.fromPage j.toPage, d.renderOk i = true)
    (hN : (pageIndices d.nPages j.fromPage j.toPage).length = N) (hN1 : 1 ≤ N) :
    (progressValues (run j).1).head? = some (100 / N) := by
  rw [run_progressValues j d N hacc hdoc hren hN]
  cases N with
  | zero => omega
  | succ m => rw [List.range_succ_eq_map, List.map_cons, List.head?_cons]

/-! ### Claim theorems -/

/-- C1, counterexample: when the dialog is accepted but the PDF fails to open
(`pdfium.PdfDocument` raises), `run` has no handler: the exception propagates
(flag `false`), no cleanup event occurs and no `finished` notification is
emitted — contradicting the claim that every exit path emits `finished` after
cleanup. -/
theorem C1_counterexample :
    run ⟨true, none, 0, 0, 100, 100⟩ = ([], false)
    ∧ Ev.finished ∉ (run ⟨true, none, 0, 0, 100, 100⟩).1 := by
  decide

/-- C1, amended: on every run that terminates normally (success and
dialog-declined paths) the `finished` notification is emitted exactly once, as
the last action, and on the accepted path it is immediately preceded by
`pdf.close()` and `painter.end()`; but on the paths where the document fails
to open or a page fails to render the exception propagates: no cleanup runs
and no `finished` notification is emitted. -/
theorem C1_cleanup_before_finished (j : Job) :
    ((run j).2 = true →
      ((run j).1.count Ev.finished = 1 ∧ (run j).1.getLast? = some Ev.finished ∧
        (j.dialogAccepted = true →
          ∃ p, (run j).1 = p ++ [Ev.pdfClose, Ev.painterEnd, Ev.finished])))
    ∧ ((run j).2 = false →
      (Ev.finished ∉ (run j).1 ∧ Ev.pdfClose ∉ (run j).1 ∧ Ev.painterEnd ∉ (run j).1)) := by
  cases hacc : j.dialogAccepted with
  | false =>
    have hrun : run j = ([Ev.finished], true) := by simp [run, hacc]
    rw [hrun]
    refine ⟨fun _ => ⟨by decide, by decide, fun hko => absurd hko (by decide)⟩, ?_⟩
    intro hko
    exact absurd hko (by decide)
  | true =>
    cases hdoc : j.doc with
    | none =>
      have hrun : run j = ([], false) := by simp [run, hacc, hdoc]
      rw [hrun]
      exact ⟨fun hko => absurd hko (by decide), fun _ => by simp⟩
    | some d =>
      cases hflag : (runLoop j.vpW j.vpH d (pageIndices d.nPages j.fromPage j.toPage).length
          (pageIndices d.nPages j.fromPage j.toPage) 1).2 with
      | false =>
        have hrun : run j = ((runLoop j.vpW j.vpH d
            (pageIndices d.nPages j.fromPage j.toPage).length
            (pageIndices d.nPages j.fromPage j.toPage) 1).1, false) := by
          simp [run, hacc, hdoc, hflag]
        rw [hrun]
        refine ⟨fun hko => absurd hko (by simp), fun _ => ?_⟩
        exact ⟨finished_not_mem_runLoop _ _ _ _ _ _, pdfClose_not_mem_runLoop _ _ _ _ _ _,
          painterEnd_not_mem_runLoop _ _ _ _ _ _⟩
      | true =>
        have hrun : run j = ((runLoop j.vpW j.vpH d
            (pageIndices d.nPages j.fromPage j.toPage).length
            (pageIndices d.nPages j.fromPage j.toPage) 1).1
          ++ [Ev.pdfClose, Ev.painterEnd, Ev.finished], true) := by
          simp [run, hacc, hdoc, hflag]
        rw [hrun]
        refine ⟨fun _ => ⟨?_, ?_, fun _ => ⟨_, rfl⟩⟩, fun hko => absurd hko (by simp)⟩
        · rw [List.count_append, runLoop_count_finished]
          decide
        · rw [show [Ev.pdfClose, Ev.painterEnd, Ev.finished] =
              [Ev.pdfClose, Ev.painterEnd] ++ [Ev.finished] from rfl,
            ← List.append_assoc, List.getLast?_concat]

/-- C1 witness: a concrete declined job terminates normally, with a single
`finished` notification as the last (and only) event. -/
theorem C1_witness :
    (run ⟨false, none, 0, 0, 100, 100⟩).1.count Ev.finished = 1 := by
  exact ((C1_cleanup_before_finished ⟨false, none, 0, 0, 100, 100⟩).1 (by decide)).1

/-- C2, counterexample: the code truncates with `int()` instead of rounding
(`fitRect 101 200 2 3` yields height `int(151.5) = 151`, the claim demands
`round(151.5) = 152`), and in the fit-to-height branch the width factor is
`PW/PH`, not `PH/PW` (`fitRect 100 50 300 200` yields width
`int(300/200*50) = 75`, the claim demands `round(200/300*50) = 33`). -/
theorem C2_counterexample :
    fitRect 101 200 2 3 ≠ (0, 0, 101, 152)
    ∧ fitRect 100 50 300 200 ≠ (0, 0, 33, 50) := by
  have h1 : fitRect 101 200 2 3 = (0, 0, 101, 151) := by
    norm_num [fitRect, pytrunc, ratFloor_eq_floor]
  have h2 : fitRect 100 50 300 200 = (0, 0, 75, 50) := by
    norm_num [fitRect, pytrunc, ratFloor_eq_floor]
  rw [h1, h2]
  decide

/-- C2, amended: for positive viewport `VW`,`VH` and positive bitmap `PW`,`PH`
on which the orientation-correction step does not fire (so the stale
pre-rotation ratio coincides with the current one): if `VH/VW > PH/PW` the
drawing rectangle is `(0, 0, VW, ⌊VW·PH/PW⌋)` (truncation, not rounding), and
otherwise it is `(0, 0, ⌊PW/PH·VH⌋, VH)` (factor `PW/PH`, not `PH/PW`). -/
theorem C2_fit_rectangle (VW VH : ℤ) (PW PH : ℕ)
    (hVW : 0 < VW) (hVH : 0 < VH)
    (hnorot : ¬ (((VH : ℚ) / (VW : ℚ) < 1 ∧ 1 < (PH : ℚ) / (PW : ℚ)) ∨
      (1 < (VH : ℚ) / (VW : ℚ) ∧ (PH : ℚ) / (PW : ℚ) < 1))) :
    ((PH : ℚ) / (PW : ℚ) < (VH : ℚ) / (VW : ℚ) →
      fitRect VW VH PW PH = (0, 0, VW, ⌊(VW : ℚ) * (PH : ℚ) / (PW : ℚ)⌋))
    ∧ (¬ ((PH : ℚ) / (PW : ℚ) < (VH : ℚ) / (VW : ℚ)) →
      fitRect VW VH PW PH = (0, 0, ⌊(PW : ℚ) * (VH : ℚ) / (PH : ℚ)⌋, VH)) := by
  have hrot : decide (((VH : ℚ) / (VW : ℚ) < 1 ∧ 1 < (PH : ℚ) / (PW : ℚ)) ∨
      (1 < (VH : ℚ) / (VW : ℚ) ∧ (PH : ℚ) / (PW : ℚ) < 1)) = false :=
    decide_eq_false hnorot
  have hVWq : (0 : ℚ) ≤ (VW : ℚ) := by exact_mod_cast le_of_lt hVW
  have hVHq : (0 : ℚ) ≤ (VH : ℚ) := by exact_mod_cast le_of_lt hVH
  constructor
  · intro hlt
    simp only [fitRect, hrot, Bool.false_eq_true, if_false, if_pos hlt]
    rw [div_div_eq_mul_div, pytrunc_eq_floor]
    exact div_nonneg (mul_nonneg hVWq (Nat.cast_nonneg PH)) (Nat.cast_nonneg PW)
  · intro hge
    simp only [fitRect, hrot, Bool.false_eq_true, if_false, if_neg hge]
    rw [div_mul_eq_mul_div, pytrunc_eq_floor]
    exact div_nonneg (mul_nonneg (Nat.cast_nonneg PW) hVHq) (Nat.cast_nonneg PH)

/-- C2 witness: viewport 100×200 and bitmap 100×300 (both portrait, no
rotation); `VH/VW = 2 ≤ 3 = PH/PW` takes the fit-to-height branch and gives
`(0, 0, ⌊100/300·200⌋, 200) = (0, 0, 66, 200)`. -/
theorem C2_witness : fitRect 100 200 100 300 = (0, 0, 66, 200) := by
  have h := (C2_fit_rectangle 100 200 100 300 (by norm_num) (by norm_num) (by norm_num)).2
    (by norm_num)
  rw [h]
  norm_num

/-- C3: for an accepted job on an opened document whose selected pages all
render, the drawn page indices are exactly `pageIndices` in trace order: all
of `[0, nPages)` when `fromPage = 0`, the half-open 0-based range
`[fromPage-1, toPage)` otherwise, in strictly ascending order. -/
theorem C3_page_range (j : Job) (d : Doc) (hacc : j.dialogAccepted = true)
    (hdoc : j.doc = some d)
    (hren : ∀ i ∈ pageIndices d.nPages j.fromPage j.toPage, d.renderOk i = true) :
    drawnIndices (run j).1 = pageIndices d.nPages j.fromPage j.toPage
    ∧ (j.fromPage = 0 → drawnIndices (run j).1 = List.range d.nPages)
    ∧ (0 < j.fromPage →
        ∀ i : ℕ, i ∈ drawnIndices (run j).1 ↔ (j.fromPage - 1 ≤ i ∧ i < j.toPage))
    ∧ List.Sorted (· < ·) (drawnIndices (run j).1) := by
  have hdi := run_drawnIndices j d hacc hdoc hren
  refine ⟨hdi, ?_, ?_, ?_⟩
  · intro hf
    rw [hdi, pageIndices, if_pos hf]
  · intro hf i
    rw [hdi, mem_pageIndices, if_neg (by omega)]
  · rw [hdi]
    exact pageIndices_sorted d.nPages j.fromPage j.toPage

/-- C3 witness: a full-range job on a 2-page document draws pages `[0, 1]`. -/
theorem C3_witness :
    drawnIndices (run ⟨true, some ⟨2, fun _ => 100, fun _ => 100, fun _ => true⟩,
        0, 0, 100, 100⟩).1 = pageIndices 2 0 0 := by
  exact (C3_page_range ⟨true, some ⟨2, fun _ => 100, fun _ => 100, fun _ => true⟩, 0, 0, 100, 100⟩
    ⟨2, fun _ => 100, fun _ => 100, fun _ => true⟩ rfl rfl (by decide)).1

/-- C4, counterexample: on a 101-page full-range job the progress value
emitted after the first page is `int(1*100/101) = 0`, contradicting the
claim's "is never 0". -/
theorem C4_counterexample :
    (progressValues (run ⟨true, some ⟨101, fun _ => 100, fun _ => 100, fun _ => true⟩,
        0, 0, 100, 100⟩).1).head? = some 0 := by
  decide

/-- C4, amended: for a job whose resolved range has `N ≥ 1` pages, the k-th
progress value (1-based k) is `⌊k·100/N⌋`; in particular the value after the
first page is `⌊100/N⌋`, which is `0` exactly when `N > 100`. -/
theorem C4_progress_formula (j : Job) (d : Doc) (N : ℕ)
    (hacc : j.dialogAccepted = true) (hdoc : j.doc = some d)
    (hren : ∀ i ∈ pageIndices d.nPages j.fromPage j.toPage, d.renderOk i = true)
    (hN : (pageIndices d.nPages j.fromPage j.toPage).length = N) (hN1 : 1 ≤ N) :
    progressValues (run j).1 = (List.range N).map (fun k => (k + 1) * 100 / N)
    ∧ (progressValues (run j).1).head? = some (100 / N)
    ∧ (100 / N = 0 ↔ 100 < N) := by
  refine ⟨run_progressValues j d N hacc hdoc hren hN,
    run_progress_head j d N hacc hdoc hren hN hN1, ?_⟩
  rw [Nat.div_eq_zero_iff (by omega)]

/-- C4 witness: the 3-page full-range job emits `[33, 66, 100]`, i.e.
`⌊k·100/3⌋` for `k = 1, 2, 3`. -/
theorem C4_witness :
    progressValues (run ⟨true, some ⟨3, fun _ => 100, fun _ => 100, fun _ => true⟩,
        0, 0, 100, 100⟩).1 = (List.range 3).map (fun k => (k + 1) * 100 / 3) := by
  exact (C4_progress_formula ⟨true, some ⟨3, fun _ => 100, fun _ => 100, fun _ => true⟩,
    0, 0, 100, 100⟩ ⟨3, fun _ => 100, fun _ => 100, fun _ => true⟩ 3
    rfl rfl (by decide) (by decide) (by decide)).1

/-- C5: the claim says a path that does not resolve to an existing file makes
construction fail before any background work; but the constructor's condition
`isinstance(pdf, str) or isinstance(pdf, Path) or not os.path.exists(pdf)`
accepts every `str` (and `Path`) argument without checking existence, so a
nonexistent string path is accepted and `runPrintTask` still starts the
thread and disables the button.  (Only `pdf == None` raises, as the claim
says for the no-path case.) -/
theorem C5_nonexistent_path_accepted :
    workerInit (PdfArg.pystr false) = Except.ok ()
    ∧ workerInit PdfArg.pynone = Except.error InitError.attributeError
    ∧ runPrintTask (PdfArg.pystr false) = ⟨true, true, true⟩ :=
  ⟨rfl, rfl, rfl⟩

/-- C6, counterexample: a cancelled picker returns the empty string, which is
a `str` and is therefore accepted by the constructor; the handler then starts
the thread and disables the print button — the claim's "no further action is
taken" is false. -/
theorem C6_counterexample :
    runPrintTask (PdfArg.pystr false) ≠ ⟨false, false, false⟩ := by
  decide

/-- C6, amended: `runPrintTask` never inspects the picker result: for every
string path, existing on disk or not (in particular the empty string of a
cancelled picker), it constructs the worker, starts the background task and
disables the print button. -/
theorem C6_picker_never_checked (onDisk : Bool) :
    runPrintTask (PdfArg.pystr onDisk) = ⟨true, true, true⟩ := by
  cases onDisk <;> rfl

/-- C7, counterexample: on a 3-page full-range job the emitted progress
sequence is `[33, 66, 100]`: it starts at `⌊100/3⌋ = 33`, not at
`⌈100·1/3⌉ = 34` as the claim states. -/
theorem C7_counterexample :
    progressValues (run ⟨true, some ⟨3, fun _ => 150, fun _ => 150, fun _ => true⟩,
        0, 0, 100, 100⟩).1 = [33, 66, 100]
    ∧ (33 : ℕ) ≠ 34 := by
  decide

/-- C7, amended: for a full-range job on an `N ≥ 1`-page document whose pages
all render, exactly `N` draw calls are made and the progress values form a
non-decreasing sequence that starts at `⌊100/N⌋` and ends at exactly `100`. -/
theorem C7_full_range_invariants (j : Job) (d : Doc) (N : ℕ)
    (hacc : j.dialogAccepted = true) (hdoc : j.doc = some d) (hfrom : j.fromPage = 0)
    (hn : d.nPages = N) (hN1 : 1 ≤ N) (hren : ∀ i, d.renderOk i = true) :
    (drawnIndices (run j).1).length = N
    ∧ List.Chain' (· ≤ ·) (progressValues (run j).1)
    ∧ (progressValues (run j).1).head? = some (100 / N)
    ∧ (progressValues (run j).1).getLast? = some 100 := by
  have hlen : (pageIndices d.nPages j.fromPage j.toPage).length = N := by
    rw [pageIndices, if_pos hfrom, List.length_range, hn]
  have hpv := run_progressValues j d N hacc hdoc (fun i _ => hren i) hlen
  have hhd := run_progress_head j d N hacc hdoc (fun i _ => hren i) hlen hN1
  obtain ⟨m, rfl⟩ := Nat.exists_eq_add_of_le hN1
  refine ⟨?_, ?_, hhd, ?_⟩
  · rw [run_drawnIndices j d hacc hdoc (fun i _ => hren i), hlen]
  · rw [hpv, List.chain'_map]
    rw [show 1 + m = m.succ by omega, List.chain'_range_succ]
    intro n _
    exact Nat.div_le_div_right (Nat.mul_le_mul_right 100 (by omega))
  · rw [hpv, show 1 + m = m + 1 by omega, List.range_succ, List.map_append]
    simp only [List.map_cons, List.map_nil]
    rw [List.getLast?_concat]
    rw [show (m + 1) * 100 / (m + 1) = 100 from Nat.mul_div_cancel_left 100 (by omega)]

/-- C7 witness: on a full-range 2-page job the first progress value is
`100/2 = 50`. -/
theorem C7_witness :
    (progressValues (run ⟨true, some ⟨2, fun _ => 80, fun _ => 120, fun _ => true⟩,
        0, 0, 100, 100⟩).1).head? = some (100 / 2) := by
  exact (C7_full_range_invariants ⟨true, some ⟨2, fun _ => 80, fun _ => 120, fun _ => true⟩,
    0, 0, 100, 100⟩ ⟨2, fun _ => 80, fun _ => 120, fun _ => true⟩ 2
    rfl rfl rfl rfl (by omega) (fun i => rfl)).2.2.1

/-- C8, counterexample: with viewport 100×200 and raw bitmap 300×100 the
rotation fires, but line 91 compares the viewport ratio `2` against the STALE
pre-rotation image ratio `1/3` (`imageRatio` is never recomputed), so the
fit-to-WIDTH branch is taken and the rectangle is
`(0, 0, 100, int(100/(100/300))) = (0, 0, 100, 300)` — not the claim's
fit-to-height result `(0, 0, 600, 200)`. -/
theorem C8_counterexample :
    fitRect 100 200 300 100 ≠ (0, 0, 600, 200) := by
  have h : fitRect 100 200 300 100 = (0, 0, 100, 300) := by
    norm_num [fitRect, pytrunc, ratFloor_eq_floor]
  rw [h]
  decide

/-- C8, amended: for viewport VW=100, VH=200 and raw bitmap PW=300, PH=100
the rotation fires (post-rotation bitmap 100×300 as the claim says), but the
branch condition uses the pre-rotation image ratio 1/3 < 2, so the code takes
the fit-to-width branch and draws into `(0, 0, 100, 300)`. -/
theorem C8_actual_rectangle :
    fitRect 100 200 300 100 = (0, 0, 100, 300) := by
  norm_num [fitRect, pytrunc, ratFloor_eq_floor]

/-- C9: when the print dialog is declined the trace is exactly one `finished`
notification: no draw call, no `newPage` advance, no progress signal. -/
theorem C9_dialog_declined (j : Job) (h : j.dialogAccepted = false) :
    (run j).1 = [Ev.finished]
    ∧ drawnIndices (run j).1 = []
    ∧ (run j).1.count Ev.newPage = 0
    ∧ progressValues (run j).1 = []
    ∧ (run j).1.count Ev.finished = 1 := by
  have hrun : run j = ([Ev.finished], true) := by simp [run, h]
  rw [hrun]
  exact ⟨rfl, rfl, rfl, rfl, rfl⟩

/-- C9 witness: a concrete declined job produces the single-event trace. -/
theorem C9_witness :
    (run ⟨false, some ⟨5, fun _ => 100, fun _ => 100, fun _ => true⟩, 0, 0, 100, 100⟩).1
      = [Ev.finished] := by
  exact (C9_dialog_declined ⟨false, some ⟨5, fun _ => 100, fun _ => 100, fun _ => true⟩,
    0, 0, 100, 100⟩ rfl).1

/-- C10: an accepted job on an opened document with `fromPage > 0` and
`toPage < fromPage` resolves to an empty range: the loop body never runs (no
draw, no `newPage`, no progress), yet the document is closed, the painter is
finalized, and exactly one `finished` notification ends the trace. -/
theorem C10_empty_range (j : Job) (d : Doc)
    (hacc : j.dialogAccepted = true) (hdoc : j.doc = some d)
    (hf : 0 < j.fromPage) (ht : j.toPage < j.fromPage) :
    (run j).1 = [Ev.pdfClose, Ev.painterEnd, Ev.finished]
    ∧ drawnIndices (run j).1 = []
    ∧ (run j).1.count Ev.newPage = 0
    ∧ progressValues (run j).1 = []
    ∧ (run j).1.count Ev.finished = 1 := by
  have hnil := pageIndices_eq_nil d.nPages j.fromPage j.toPage hf ht
  have hrun := run_of_ok j d hacc hdoc (by rw [hnil]; intro i hi; simp at hi)
  rw [hnil] at hrun
  have htr : (run j).1 = [Ev.pdfClose, Ev.painterEnd, Ev.finished] := by
    rw [hrun]
    rfl
  rw [htr]
  exact ⟨rfl, rfl, rfl, rfl, rfl⟩

/-- C10 witness: an accepted job with `fromPage = 2`, `toPage = 1` on a 5-page
document produces only cleanup and `finished`. -/
theorem C10_witness :
    (run ⟨true, some ⟨5, fun _ => 100, fun _ => 100, fun _ => true⟩, 2, 1, 100, 100⟩).1
      = [Ev.pdfClose, Ev.painterEnd, Ev.finished] := by
  exact (C10_empty_range ⟨true, some ⟨5, fun _ => 100, fun _ => 100, fun _ => true⟩,
    2, 1, 100, 100⟩ ⟨5, fun _ => 100, fun _ => 100, fun _ => true⟩
    rfl rfl (by decide) (by decide)).1

end PrintPDF
